import Mathlib

/-!
Verification of the logging core of the `jsktoolbox` repository
(`jsktoolbox/libs/base_logs.py` and `jsktoolbox/logstool/logs.py`),
shallowly embedded in Lean 4.

Modelling conventions:
* The queue carried by `LoggerQueue` is a `List` of `(log_level, message)`
  pairs; `put` appends at the tail, `get` pops the head, exactly as the
  Python list `append` / `pop(0)` pair does.
* Python exceptions are modelled by `Except`: `KeyError` raised for an
  unknown log level becomes `LogError.keyError`; the `AttributeError`
  raised when `LoggerClient.message` dereferences an unbound (`None`)
  queue becomes `LogError.notBound`.
* Sink engines (`LoggerEngineStdout`, ... from `logstool/engines.py`) are
  opaque values carrying their concrete class (`EngineKind`) and an
  instance identity; `add_engine` only ever compares `__class__`, which is
  modelled by comparing kinds.
* Side effects of a drain (`LoggerEngine.send`) are modelled as the list of
  `(engine, message)` invocation events, in invocation order.
-/

namespace ToolBox

/-- The concrete sink classes of `logstool/engines.py`; `add_engine`
compares sinks by `__class__`, modelled as this kind. -/
inductive EngineKind where
  | stdout
  | stderr
  | file
  | syslog
deriving DecidableEq, Repr

/-- A sink engine instance: its concrete class and an instance identity
(two calls of a constructor yield distinct instances of one kind). -/
structure Engine where
  kind : EngineKind
  id : Nat
deriving DecidableEq, Repr

/-- `LogsLevelKeys.keys` from `libs/base_logs.py`: the tuple of the eight
valid log-level keys, in source order. -/
def LogsLevelKeys.keys : List String :=
  ["ALERT", "CRITICAL", "DEBUG", "EMERGENCY", "ERROR", "INFO", "NOTICE", "WARNING"]

/-- A queue item: the `[log_level, message]` pair appended by
`LoggerQueue.put`. -/
abbrev QueueItem := String × String

/-- The exceptions of the logging core that the claims mention:
`keyError` models the `KeyError` raised for an invalid log level,
`notBound` models the `AttributeError` raised when a client whose
`logs_queue` is `None` tries to call `.put` on it. -/
inductive LogError where
  | keyError
  | notBound
deriving DecidableEq, Repr

/-- `LoggerQueue.put(message, log_level)` from `libs/base_logs.py`: raises
`KeyError` when `log_level` is not in `LogsLevelKeys.keys`, otherwise
appends `[log_level, message]` at the tail. -/
def LoggerQueue.put (q : List QueueItem) (message : String) (log_level : String) :
    Except LogError (List QueueItem) :=
  if log_level ∈ LogsLevelKeys.keys then
    Except.ok (q ++ [(log_level, message)])
  else
    Except.error LogError.keyError

/-- `LoggerQueue.get()` from `libs/base_logs.py`: pops the head item and
returns it together with the remaining queue, or `none` when empty. -/
def LoggerQueue.get (q : List QueueItem) : Option (QueueItem × List QueueItem) :=
  match q with
  | [] => none
  | x :: xs => some (x, xs)

/-- The queue contents after a `put` call, in the mutable reading: a raised
exception leaves the Python list untouched, a successful call leaves the
appended list. -/
def LoggerQueue.putEffect (q : List QueueItem) (message : String) (log_level : String) :
    List QueueItem :=
  match LoggerQueue.put q message log_level with
  | Except.ok q2 => q2
  | Except.error _ => q

/-- The single-quote character, used by the Python `repr` of a string. -/
def singleQuote : String := String.singleton (Char.ofNat 39)

/-- Python `repr` of a string value that itself contains no quote or escape
characters: the text wrapped in single quotes. -/
def pyReprStr (s : String) : String := singleQuote ++ s ++ singleQuote

/-- Python `str`/`repr` of a list of strings (no quotes or escapes inside
the elements): `[` + comma-space separated element reprs + `]`. -/
def pyReprStrList (xs : List String) : String :=
  "[" ++ String.intercalate ", " (xs.map pyReprStr) ++ "]"

/-- The two shapes of Python value the claims pass as the `message`
argument of `LoggerClient.message`: a plain string, or a list of strings. -/
inductive PyText where
  | str (s : String)
  | strList (xs : List String)
deriving DecidableEq, Repr

/-- The coercion `message = f"{message}"` applied by `LoggerClient.message`
when its argument is not a string. -/
def pyFormat : PyText → String
  | PyText.str s => s
  | PyText.strList xs => pyReprStrList xs

/-- `LoggerClient` state: the optional client name and the optionally bound
queue (`logs_queue` is `None` until a queue is attached). The queue is
modelled by value, so operations return the updated queue contents. -/
structure LoggerClient where
  name : Option String
  logs_queue : Option (List QueueItem)
deriving DecidableEq, Repr

/-- `LoggerClient.__init__(queue=None, name=None)`: stores the name and, if
a queue was given, binds it; otherwise the client stays unbound. -/
def LoggerClient.init (queue : Option (List QueueItem)) (name : Option String) :
    LoggerClient :=
  { name := name, logs_queue := queue }

/-- `LoggerClient.message(message, log_level)` from `logstool/logs.py`:
checks `log_level` against `LogsLevelKeys.keys` (raising `KeyError`
otherwise), coerces a non-string message with `f"{message}"`, decorates it
with `[name] ` when the client is named, then calls `.put` on the bound
queue — which raises `AttributeError` (`notBound`) when `logs_queue` is
`None`. Returns the updated queue contents. -/
def LoggerClient.message (c : LoggerClient) (message : PyText) (log_level : String) :
    Except LogError (List QueueItem) :=
  if log_level ∈ LogsLevelKeys.keys then
    let m1 := pyFormat message
    let m2 := match c.name with
      | some n => "[" ++ n ++ "] " ++ m1
      | none => m1
    match c.logs_queue with
    | some q => LoggerQueue.put q m2 log_level
    | none => Except.error LogError.notBound
  else
    Except.error LogError.keyError

/-- `LoggerClient.message_alert` setter: `message(message, ALERT)`. -/
def LoggerClient.message_alert (c : LoggerClient) (message : PyText) :
    Except LogError (List QueueItem) :=
  c.message message "ALERT"

/-- `LoggerClient.message_critical` setter: `message(message, CRITICAL)`. -/
def LoggerClient.message_critical (c : LoggerClient) (message : PyText) :
    Except LogError (List QueueItem) :=
  c.message message "CRITICAL"

/-- `LoggerClient.message_debug` setter: `message(message, DEBUG)`. -/
def LoggerClient.message_debug (c : LoggerClient) (message : PyText) :
    Except LogError (List QueueItem) :=
  c.message message "DEBUG"

/-- `LoggerClient.message_emergency` setter: `message(message, EMERGENCY)`. -/
def LoggerClient.message_emergency (c : LoggerClient) (message : PyText) :
    Except LogError (List QueueItem) :=
  c.message message "EMERGENCY"

/-- `LoggerClient.message_error` setter: `message(message, ERROR)`. -/
def LoggerClient.message_error (c : LoggerClient) (message : PyText) :
    Except LogError (List QueueItem) :=
  c.message message "ERROR"

/-- `LoggerClient.message_info` setter: `message(message, INFO)`. -/
def LoggerClient.message_info (c : LoggerClient) (message : PyText) :
    Except LogError (List QueueItem) :=
  c.message message "INFO"

/-- `LoggerClient.message_notice` setter: `message(message, NOTICE)`. -/
def LoggerClient.message_notice (c : LoggerClient) (message : PyText) :
    Except LogError (List QueueItem) :=
  c.message message "NOTICE"

/-- `LoggerClient.message_warning` setter: `message(message, WARNING)`. -/
def LoggerClient.message_warning (c : LoggerClient) (message : PyText) :
    Except LogError (List QueueItem) :=
  c.message message "WARNING"

/-- A routing table: the Python dict from log-level key to list of engines,
modelled as an insertion-ordered association list with unique keys. -/
abbrev RoutingTable := List (String × List Engine)

/-- Dict lookup `tbl[lv]` on a routing table. -/
def tableLookup (tbl : RoutingTable) (lv : String) : Option (List Engine) :=
  match tbl with
  | [] => none
  | (k, es) :: rest => if k = lv then some es else tableLookup rest lv

/-- Dict membership `lv in tbl`. -/
def tableHasKey (tbl : RoutingTable) (lv : String) : Bool :=
  match tbl with
  | [] => false
  | (k, _) :: rest => k = lv || tableHasKey rest lv

/-- The body of `LoggerEngine.add_engine` for a level whose engine list
already exists: every entry whose class equals the new engine's class is
overwritten with the new engine (`test = True`); when no entry matched,
the engine is appended. -/
def replaceOrAppend (engine : Engine) (es : List Engine) : List Engine :=
  if es.any (fun x => x.kind == engine.kind) then
    es.map (fun x => if x.kind = engine.kind then engine else x)
  else
    es ++ [engine]

/-- `add_engine` acting on an existing custom table (the `else` branch of
the `Keys.CONF not in self._data` test): a missing level key gets a fresh
singleton list appended at the end of the dict, an existing key has its
list updated in place via `replaceOrAppend`. -/
def confAdd (engine : Engine) (log_level : String) : RoutingTable → RoutingTable
  | [] => [(log_level, [engine])]
  | (k, es) :: rest =>
    if k = log_level then (k, replaceOrAppend engine es) :: rest
    else (k, es) :: confAdd engine log_level rest

/-- `LoggerEngine` state from `logstool/logs.py`: the owned queue, the
optional custom routing table (`self._data[Keys.CONF]`, absent until the
first `add_engine`) and the default table (`self._data[Keys.NO_CONF]`). -/
structure LoggerEngine where
  logs_queue : List QueueItem
  conf : Option RoutingTable
  no_conf : RoutingTable
deriving DecidableEq, Repr

/-- `LoggerEngineStdout()` instances, tagged with a fresh identity. -/
def LoggerEngineStdout (id : Nat) : Engine := ⟨EngineKind.stdout, id⟩

/-- `LoggerEngineStderr()` instances, tagged with a fresh identity. -/
def LoggerEngineStderr (id : Nat) : Engine := ⟨EngineKind.stderr, id⟩

/-- `LoggerEngine.__init__`: an empty queue, no custom table, and the
default table populated for exactly INFO, WARNING, NOTICE (stdout), DEBUG
(stderr), ERROR and CRITICAL (stdout + stderr) — in source order. -/
def LoggerEngine.init : LoggerEngine :=
  { logs_queue := []
  , conf := none
  , no_conf :=
      [ ("INFO", [LoggerEngineStdout 0])
      , ("WARNING", [LoggerEngineStdout 1])
      , ("NOTICE", [LoggerEngineStdout 2])
      , ("DEBUG", [LoggerEngineStderr 3])
      , ("ERROR", [LoggerEngineStdout 4, LoggerEngineStderr 5])
      , ("CRITICAL", [LoggerEngineStdout 6, LoggerEngineStderr 7]) ] }

/-- `LoggerEngine.add_engine(log_level, engine)`: creates the custom table
with a singleton entry on first use, otherwise updates it via `confAdd`. -/
def LoggerEngine.add_engine (e : LoggerEngine) (log_level : String) (engine : Engine) :
    LoggerEngine :=
  match e.conf with
  | none => { e with conf := some [(log_level, [engine])] }
  | some tbl => { e with conf := some (confAdd engine log_level tbl) }

/-- The sink list `LoggerEngine.send` resolves for one level: when the
custom table exists and is non-empty it is consulted exclusively (a level
missing from it gets no engines); otherwise the default table is used. -/
def routedEngines (e : LoggerEngine) (log_level : String) : List Engine :=
  match e.conf with
  | some tbl =>
    if 0 < tbl.length then (tableLookup tbl log_level).getD []
    else (tableLookup e.no_conf log_level).getD []
  | none => (tableLookup e.no_conf log_level).getD []

/-- The invocation events produced by draining the given items in order:
for each `(log_level, message)` item, each resolved engine receives
`send(message)`, in list order. -/
def sendList (e : LoggerEngine) : List QueueItem → List (Engine × String)
  | [] => []
  | (lv, msg) :: rest =>
      (routedEngines e lv).map (fun eng => (eng, msg)) ++ sendList e rest

/-- `LoggerEngine.send()`: pops queue items until the queue is empty and
fans each out to its resolved engines; returns the drained engine state and
the list of `(engine, message)` invocation events in order. -/
def LoggerEngine.send (e : LoggerEngine) : LoggerEngine × List (Engine × String) :=
  ({ e with logs_queue := [] }, sendList e e.logs_queue)

/-- The observable actions of `ThLoggerProcessor.run` (debug disabled):
a drain (`self.logger_engine.send()`) or a sleep of one poll interval. -/
inductive RunEvent where
  | drain
  | sleepEv
deriving DecidableEq, Repr

/-- The trace of `ThLoggerProcessor.run` with both dependencies bound and
`debug = False`: `stopped k` is the value of the stop event at the k-th
while-condition check; while it is false each cycle drains then sleeps;
once it is true the loop exits and exactly one final drain runs. `fuel`
bounds the number of condition checks examined; `none` means the flag was
never observed set within the fuel. -/
def runFrom (stopped : Nat → Bool) : Nat → Nat → Option (List RunEvent)
  | 0, _ => none
  | fuel + 1, k =>
    if stopped k then some [RunEvent.drain]
    else
      match runFrom stopped fuel (k + 1) with
      | none => none
      | some tr => some (RunEvent.drain :: RunEvent.sleepEv :: tr)

/-- The events of `m` full while-loop cycles: each drains then sleeps. -/
def loopEvents : Nat → List RunEvent
  | 0 => []
  | m + 1 => RunEvent.drain :: RunEvent.sleepEv :: loopEvents m

/-- A level absent from a table (as a dict key) has no lookup result. -/
theorem tableLookup_eq_none_of_hasKey_false (tbl : RoutingTable) (lv : String)
    (h : tableHasKey tbl lv = false) : tableLookup tbl lv = none := by
  induction tbl with
  | nil => rfl
  | cons p rest ih =>
    obtain ⟨k, es⟩ := p
    simp [tableHasKey] at h
    simp [tableLookup, h.1, ih h.2]

/-- C1: once the custom routing table is non-empty, draining a queued item
whose severity is not one of its keys invokes zero sinks, even when that
severity has a default-table entry. -/
theorem custom_routing_drops_unlisted_level (e : LoggerEngine) (tbl : RoutingTable)
    (lv msg : String)
    (hconf : e.conf = some tbl) (hne : 0 < tbl.length)
    (habs : tableHasKey tbl lv = false)
    (hq : e.logs_queue = [(lv, msg)]) :
    (LoggerEngine.send e).2 = [] := by
  have hlk := tableLookup_eq_none_of_hasKey_false tbl lv habs
  simp [LoggerEngine.send, hq, sendList, routedEngines, hconf, hne, hlk]

/-- The dispatcher of the C1 scenario: `addSink(ERROR, sinkA)` on a fresh
engine, with one DEBUG item queued. -/
def c1Engine : LoggerEngine :=
  { LoggerEngine.add_engine LoggerEngine.init "ERROR" ⟨EngineKind.file, 100⟩ with
      logs_queue := [("DEBUG", "disk state")] }

/-- Witness for C1 at the scenario of the claim. -/
theorem custom_routing_drops_unlisted_level_witness :
    (LoggerEngine.send c1Engine).2 = [] :=
  custom_routing_drops_unlisted_level c1Engine
    [("ERROR", [⟨EngineKind.file, 100⟩])] "DEBUG" "disk state"
    rfl (by decide) (by decide) rfl

/-- C3 counterexample: ALERT is a valid severity, yet a freshly constructed
engine resolves it (and EMERGENCY) to no sink at all, and draining a queued
ALERT item produces zero sink invocations. -/
theorem default_table_alert_silent_cex :
    ("ALERT" ∈ LogsLevelKeys.keys ∧ "EMERGENCY" ∈ LogsLevelKeys.keys) ∧
    routedEngines LoggerEngine.init "ALERT" = [] ∧
    routedEngines LoggerEngine.init "EMERGENCY" = [] ∧
    (LoggerEngine.send { LoggerEngine.init with logs_queue := [("ALERT", "x")] }).2 = [] := by
  refine ⟨⟨by decide, by decide⟩, rfl, rfl, rfl⟩

/-- C3 as amended: the default table of a fresh engine resolves the six
levels INFO, WARNING, NOTICE, DEBUG, ERROR, CRITICAL to at least one sink
each, while ALERT and EMERGENCY resolve to none. -/
theorem default_table_coverage :
    routedEngines LoggerEngine.init "INFO" ≠ [] ∧
    routedEngines LoggerEngine.init "WARNING" ≠ [] ∧
    routedEngines LoggerEngine.init "NOTICE" ≠ [] ∧
    routedEngines LoggerEngine.init "DEBUG" ≠ [] ∧
    routedEngines LoggerEngine.init "ERROR" ≠ [] ∧
    routedEngines LoggerEngine.init "CRITICAL" ≠ [] ∧
    routedEngines LoggerEngine.init "ALERT" = [] ∧
    routedEngines LoggerEngine.init "EMERGENCY" = [] := by
  refine ⟨by decide, by decide, by decide, by decide, by decide, by decide, rfl, rfl⟩

/-- `"ERROR"` is a valid log-level key. -/
theorem error_mem_keys : "ERROR" ∈ LogsLevelKeys.keys := by decide

/-- C4 counterexample: an unnamed bound client calling the ERROR setter on
the list `["disk full", "retrying"]` does not enqueue two items; the queue
receives a single item carrying the textual representation of the list. -/
theorem message_error_list_cex :
    LoggerClient.message_error { name := none, logs_queue := some [] }
        (PyText.strList ["disk full", "retrying"]) ≠
      Except.ok [("ERROR", "disk full"), ("ERROR", "retrying")] := by
  have hval : LoggerClient.message_error { name := none, logs_queue := some [] }
      (PyText.strList ["disk full", "retrying"]) =
      Except.ok [("ERROR", pyReprStrList ["disk full", "retrying"])] := rfl
  rw [hval]
  intro h
  injection h with h2
  exact absurd h2 (by decide)

/-- C4 as amended: a per-level convenience operation given a single string
enqueues exactly one item with that text, and given an ordered sequence it
still enqueues exactly one item, whose text is the Python textual
representation of the sequence (no per-element expansion). -/
theorem message_error_list_coerced (q : List QueueItem) (s : String) (xs : List String) :
    LoggerClient.message_error { name := none, logs_queue := some q } (PyText.str s) =
      Except.ok (q ++ [("ERROR", s)]) ∧
    LoggerClient.message_error { name := none, logs_queue := some q } (PyText.strList xs) =
      Except.ok (q ++ [("ERROR", pyReprStrList xs)]) := by
  constructor <;>
    simp [LoggerClient.message_error, LoggerClient.message, LoggerQueue.put,
      pyFormat, error_mem_keys]

/-- C5: pushing with a level outside the eight enumerated keys fails with
the invalid-severity error (`KeyError`), leaves the queue contents exactly
as they were, and the same holds for `message` on a bound client. -/
theorem put_invalid_level_rejected (q : List QueueItem) (T V : String)
    (hV : V ∉ LogsLevelKeys.keys) :
    LoggerQueue.put q T V = Except.error LogError.keyError ∧
    LoggerQueue.putEffect q T V = q ∧
    (∀ c : LoggerClient, c.logs_queue = some q →
      LoggerClient.message c (PyText.str T) V = Except.error LogError.keyError) := by
  refine ⟨?_, ?_, ?_⟩
  · simp [LoggerQueue.put, hV]
  · simp [LoggerQueue.putEffect, LoggerQueue.put, hV]
  · intro c hc
    simp [LoggerClient.message, hV]

/-- Witness for C5 at the invalid level `"FATAL"`. -/
theorem put_invalid_level_rejected_witness :
    LoggerQueue.put [("INFO", "a")] "t" "FATAL" = Except.error LogError.keyError ∧
    LoggerQueue.putEffect [("INFO", "a")] "t" "FATAL" = [("INFO", "a")] ∧
    (∀ c : LoggerClient, c.logs_queue = some [("INFO", "a")] →
      LoggerClient.message c (PyText.str "t") "FATAL" = Except.error LogError.keyError) :=
  put_invalid_level_rejected [("INFO", "a")] "t" "FATAL" (by decide)

/-- C6: for a valid severity, a push on the empty queue followed by a pop
returns the `(severity, text)` pair, and a pop on the emptied queue returns
`none` without failing. -/
theorem put_then_get_roundtrip (S T : String) (hS : S ∈ LogsLevelKeys.keys) :
    LoggerQueue.put [] T S = Except.ok [(S, T)] ∧
    LoggerQueue.get [(S, T)] = some ((S, T), []) ∧
    LoggerQueue.get ([] : List QueueItem) = none := by
  refine ⟨?_, rfl, rfl⟩
  simp [LoggerQueue.put, hS]

/-- Witness for C6 at `S = "INFO"`, `T = "hello"`. -/
theorem put_then_get_roundtrip_witness :
    LoggerQueue.put [] "hello" "INFO" = Except.ok [("INFO", "hello")] ∧
    LoggerQueue.get [("INFO", "hello")] = some (("INFO", "hello"), []) ∧
    LoggerQueue.get ([] : List QueueItem) = none :=
  put_then_get_roundtrip "INFO" "hello" (by decide)

/-- C8: a named client's `message` with a valid level enqueues exactly one
item whose text is the original text decorated with `[name] `. -/
theorem named_client_decorates_message (n T lv : String) (q : List QueueItem)
    (hlv : lv ∈ LogsLevelKeys.keys) :
    LoggerClient.message { name := some n, logs_queue := some q } (PyText.str T) lv =
      Except.ok (q ++ [(lv, "[" ++ n ++ "] " ++ T)]) := by
  simp [LoggerClient.message, LoggerQueue.put, pyFormat, hlv]

/-- Witness for C8 at the scenario of the claim: a client named `db`
sending `ready` at INFO level on an empty queue. -/
theorem named_client_decorates_message_witness :
    LoggerClient.message { name := some "db", logs_queue := some [] }
        (PyText.str "ready") "INFO" =
      Except.ok [("INFO", "[db] ready")] := by
  have h := named_client_decorates_message "db" "ready" "INFO" [] (by decide)
  simpa using h

/-- C9: constructing a client without a queue succeeds and leaves it
unbound; `message` (and the ERROR convenience setter) on the unbound client
fail with the not-bound error for a valid level, while the same call on the
client constructed with a queue succeeds. -/
theorem unbound_client_errors (nm : Option String) (T lv : String) (q : List QueueItem)
    (hlv : lv ∈ LogsLevelKeys.keys) :
    (LoggerClient.init none nm).logs_queue = none ∧
    LoggerClient.message (LoggerClient.init none nm) (PyText.str T) lv =
      Except.error LogError.notBound ∧
    LoggerClient.message_error (LoggerClient.init none nm) (PyText.str T) =
      Except.error LogError.notBound ∧
    (∃ q2, LoggerClient.message (LoggerClient.init (some q) nm) (PyText.str T) lv =
      Except.ok q2) := by
  refine ⟨rfl, ?_, ?_, ?_⟩
  · simp [LoggerClient.message, LoggerClient.init, hlv]
  · simp [LoggerClient.message_error, LoggerClient.message, LoggerClient.init,
      error_mem_keys]
  · cases nm with
    | none =>
      exact ⟨q ++ [(lv, T)],
        by simp [LoggerClient.message, LoggerClient.init, LoggerQueue.put, pyFormat, hlv]⟩
    | some n =>
      exact ⟨q ++ [(lv, "[" ++ n ++ "] " ++ T)],
        by simp [LoggerClient.message, LoggerClient.init, LoggerQueue.put, pyFormat, hlv]⟩

/-- Witness for C9 at a client named `db`, text `x`, level INFO. -/
theorem unbound_client_errors_witness :
    (LoggerClient.init none (some "db")).logs_queue = none ∧
    LoggerClient.message (LoggerClient.init none (some "db")) (PyText.str "x") "INFO" =
      Except.error LogError.notBound ∧
    LoggerClient.message_error (LoggerClient.init none (some "db")) (PyText.str "x") =
      Except.error LogError.notBound ∧
    (∃ q2, LoggerClient.message (LoggerClient.init (some []) (some "db"))
      (PyText.str "x") "INFO" = Except.ok q2) :=
  unbound_client_errors (some "db") "x" "INFO" [] (by decide)

/-- Auxiliary induction for the worker loop: if the stop flag reads true at
check `k + N` and the fuel exceeds `N`, the loop terminates with some
number `m ≤ N` of full cycles followed by exactly one final drain. -/
theorem runFrom_stop (stopped : Nat → Bool) :
    ∀ N fuel k, stopped (k + N) = true → N < fuel →
      ∃ m, m ≤ N ∧ runFrom stopped fuel k = some (loopEvents m ++ [RunEvent.drain]) := by
  intro N
  induction N with
  | zero =>
    intro fuel k h hf
    match fuel, hf with
    | fuel + 1, _ =>
      refine ⟨0, Nat.le_refl 0, ?_⟩
      rw [Nat.add_zero] at h
      simp [runFrom, h, loopEvents]
  | succ n ih =>
    intro fuel k h hf
    match fuel, hf with
    | fuel + 1, hf =>
      cases hstop : stopped k with
      | true =>
        exact ⟨0, Nat.zero_le _, by simp [runFrom, hstop, loopEvents]⟩
      | false =>
        have h2 : stopped ((k + 1) + n) = true := by
          have heq : (k + 1) + n = k + (n + 1) := by omega
          rw [heq]; exact h
        have hf2 : n < fuel := by omega
        obtain ⟨m, hm, htr⟩ := ih fuel (k + 1) h2 hf2
        refine ⟨m + 1, by omega, ?_⟩
        simp [runFrom, hstop, htr, loopEvents]

/-- C2: once the stop flag is set (it reads true at condition check `N`),
the worker loop terminates: its trace is some number of full
drain-then-sleep cycles followed by exactly one final drain after the loop
exit, with nothing after that final flush. -/
theorem worker_stop_final_flush (stopped : Nat → Bool) (N fuel : Nat)
    (hN : stopped N = true) (hfuel : N < fuel) :
    ∃ m, m ≤ N ∧ runFrom stopped fuel 0 = some (loopEvents m ++ [RunEvent.drain]) := by
  have h0 : stopped (0 + N) = true := by rw [Nat.zero_add]; exact hN
  exact runFrom_stop stopped N fuel 0 h0 hfuel

/-- Witness for C2: the flag becomes set at the third condition check. -/
theorem worker_stop_final_flush_witness :
    ∃ m, m ≤ 2 ∧ runFrom (fun k => decide (2 ≤ k)) 5 0 =
      some (loopEvents m ++ [RunEvent.drain]) :=
  worker_stop_final_flush (fun k => decide (2 ≤ k)) 2 5 (by decide) (by decide)

/-- Replacing the same-kind entries never changes the list of kinds. -/
theorem replaceAll_kinds (engine : Engine) (es : List Engine) :
    (es.map (fun x => if x.kind = engine.kind then engine else x)).map Engine.kind =
      es.map Engine.kind := by
  induction es with
  | nil => rfl
  | cons y ys ih =>
    by_cases h : y.kind = engine.kind
    · simp [h, ih]
    · simp [h, ih]

/-- When no element has the engine's kind, replacement is the identity. -/
theorem replaceAll_id (engine : Engine) (ys : List Engine)
    (h : ∀ z ∈ ys, z.kind ≠ engine.kind) :
    ys.map (fun z => if z.kind = engine.kind then engine else z) = ys := by
  induction ys with
  | nil => rfl
  | cons a as ih =>
    have ha := h a (by simp)
    simp [ha]
    exact ih fun z hz => h z (by simp [hz])

/-- `replaceOrAppend` never produces an empty list. -/
theorem replaceOrAppend_ne_nil (engine : Engine) (es : List Engine) :
    replaceOrAppend engine es ≠ [] := by
  unfold replaceOrAppend
  cases es with
  | nil => simp
  | cons y ys =>
    by_cases ha : (y :: ys).any (fun x => x.kind == engine.kind) = true
    · rw [if_pos ha]; simp
    · rw [if_neg ha]; simp

/-- `replaceOrAppend` preserves pairwise distinctness of engine kinds. -/
theorem replaceOrAppend_kinds_nodup (engine : Engine) (es : List Engine)
    (h : (es.map Engine.kind).Nodup) :
    ((replaceOrAppend engine es).map Engine.kind).Nodup := by
  unfold replaceOrAppend
  by_cases ha : es.any (fun x => x.kind == engine.kind) = true
  · rw [if_pos ha, replaceAll_kinds]; exact h
  · rw [if_neg ha, List.map_append]
    apply List.Nodup.append h (by simp)
    intro a ha1 ha2
    simp at ha2
    rcases List.mem_map.mp ha1 with ⟨x, hx, hxk⟩
    rw [List.any_eq_true] at ha
    exact ha ⟨x, hx, by rw [beq_iff_eq, hxk]; exact ha2⟩

/-- A successful table lookup exposes an entry of the table. -/
theorem tableLookup_mem (tbl : RoutingTable) (lv : String) (es : List Engine)
    (h : tableLookup tbl lv = some es) : (lv, es) ∈ tbl := by
  induction tbl with
  | nil => simp [tableLookup] at h
  | cons p rest ih =>
    obtain ⟨k, v⟩ := p
    by_cases hk : k = lv
    · subst hk
      simp [tableLookup] at h
      subst h
      simp
    · simp [tableLookup, hk] at h
      simp [ih h]

/-- Entry-wise invariant of a custom routing table: every entry holds a
non-empty engine list whose concrete classes are pairwise distinct. -/
def tblInv (tbl : RoutingTable) : Prop :=
  ∀ p ∈ tbl, p.2 ≠ [] ∧ (p.2.map Engine.kind).Nodup

/-- The invariant lifted to the optional custom table of an engine. -/
def confInvariant : Option RoutingTable → Prop
  | none => True
  | some tbl => tblInv tbl

/-- `confAdd` preserves the table invariant. -/
theorem tblInv_confAdd (engine : Engine) (log_level : String) (tbl : RoutingTable)
    (h : tblInv tbl) : tblInv (confAdd engine log_level tbl) := by
  induction tbl with
  | nil =>
    intro p hp
    simp [confAdd] at hp
    subst hp
    exact ⟨by simp, by simp⟩
  | cons q rest ih =>
    obtain ⟨k, es⟩ := q
    by_cases hk : k = log_level
    · subst hk
      intro p hp
      simp [confAdd] at hp
      rcases hp with hp | hp
      · subst hp
        have he := h (k, es) (by simp)
        exact ⟨replaceOrAppend_ne_nil engine es,
          replaceOrAppend_kinds_nodup engine es he.2⟩
      · exact h p (by simp [hp])
    · intro p hp
      simp [confAdd, hk] at hp
      rcases hp with hp | hp
      · subst hp
        exact h (k, es) (by simp)
      · exact ih (fun r hr => h r (by simp [hr])) p hp

/-- `add_engine` preserves the invariant on the custom table. -/
theorem confInvariant_add (e : LoggerEngine) (lv : String) (engine : Engine)
    (h : confInvariant e.conf) :
    confInvariant (LoggerEngine.add_engine e lv engine).conf := by
  cases hc : e.conf with
  | none =>
    simp [LoggerEngine.add_engine, hc, confInvariant]
    intro p hp
    simp at hp
    subst hp
    exact ⟨by simp, by simp⟩
  | some tbl =>
    rw [hc] at h
    simp [LoggerEngine.add_engine, hc, confInvariant]
    exact tblInv_confAdd engine lv tbl h

/-- A dispatcher reached from a fresh engine by a finite sequence of
`add_engine` calls (applied left to right). -/
def applyOps (ops : List (String × Engine)) : LoggerEngine :=
  ops.foldl (fun e p => LoggerEngine.add_engine e p.1 p.2) LoggerEngine.init

/-- The invariant holds along any `add_engine` fold. -/
theorem confInvariant_foldl (ops : List (String × Engine)) :
    ∀ e : LoggerEngine, confInvariant e.conf →
      confInvariant (ops.foldl (fun e p => LoggerEngine.add_engine e p.1 p.2) e).conf := by
  induction ops with
  | nil => intro e he; simpa using he
  | cons p rest ih =>
    intro e he
    simp only [List.foldl_cons]
    exact ih _ (confInvariant_add e p.1 p.2 he)

/-- C10: in every engine state reachable by a finite sequence of
`add_engine` calls from a fresh engine, every level present in the custom
table maps to a non-empty sink list whose concrete classes are pairwise
distinct. -/
theorem conf_table_invariant (ops : List (String × Engine)) (tbl : RoutingTable)
    (lv : String) (es : List Engine)
    (h1 : (applyOps ops).conf = some tbl)
    (h2 : tableLookup tbl lv = some es) :
    es ≠ [] ∧ (es.map Engine.kind).Nodup := by
  have hinv : confInvariant (applyOps ops).conf :=
    confInvariant_foldl ops LoggerEngine.init trivial
  rw [h1] at hinv
  exact hinv (lv, es) (tableLookup_mem tbl lv es h2)

/-- Witness for C10 after a single `add_engine("ERROR", file sink)`. -/
theorem conf_table_invariant_witness :
    ([(⟨EngineKind.file, 1⟩ : Engine)] ≠ ([] : List Engine)) ∧
    (([(⟨EngineKind.file, 1⟩ : Engine)].map Engine.kind).Nodup) :=
  conf_table_invariant [("ERROR", ⟨EngineKind.file, 1⟩)]
    [("ERROR", [⟨EngineKind.file, 1⟩])] "ERROR" [⟨EngineKind.file, 1⟩]
    rfl (by decide)

/-- Index of a member of a list. -/
theorem exists_get_of_mem (l : List Engine) (x : Engine) (h : x ∈ l) :
    ∃ j : Nat, l[j]? = some x := by
  induction l with
  | nil => simp at h
  | cons y ys ih =>
    rcases List.mem_cons.mp h with h | h
    · exact ⟨0, by simp [h]⟩
    · obtain ⟨j, hj⟩ := ih h
      exact ⟨j + 1, by simpa using hj⟩

/-- Writing back the value already present leaves a list unchanged. -/
theorem set_eq_self_of_get (l : List EngineKind) (i : Nat) (a : EngineKind)
    (h : l[i]? = some a) : l.set i a = l := by
  induction l generalizing i with
  | nil => simp at h
  | cons y ys ih =>
    cases i with
    | zero =>
      simp at h
      simp [h]
    | succ n =>
      simp at h
      simpa using ih n h

/-- `LoggerEngine.send` resolves a level through the custom table by this
list: the engines registered for the level, empty when absent. -/
def engineList (e : LoggerEngine) (lv : String) : List Engine :=
  match e.conf with
  | none => []
  | some tbl => (tableLookup tbl lv).getD []

/-- Looking up the level just updated by `confAdd`. -/
theorem tableLookup_confAdd_self (engine : Engine) (lv : String) (tbl : RoutingTable) :
    tableLookup (confAdd engine lv tbl) lv =
      some (match tableLookup tbl lv with
            | some es => replaceOrAppend engine es
            | none => [engine]) := by
  induction tbl with
  | nil => simp [confAdd, tableLookup]
  | cons p rest ih =>
    obtain ⟨k, es⟩ := p
    by_cases hk : k = lv
    · subst hk
      simp [confAdd, tableLookup]
    · simp [confAdd, tableLookup, hk, ih]

/-- The registered list after `add_engine` on a level that already had the
list `es` in the custom table. -/
theorem engineList_add_of_conf (e : LoggerEngine) (lv : String) (engine : Engine)
    (t : RoutingTable) (es : List Engine)
    (hc : e.conf = some t) (hl : tableLookup t lv = some es) :
    engineList (e.add_engine lv engine) lv = replaceOrAppend engine es := by
  simp [engineList, LoggerEngine.add_engine, hc, tableLookup_confAdd_self, hl]

/-- After any `add_engine`, the custom table exists and the updated level
looks up to exactly the list `engineList` reports. -/
theorem engineList_add_lookup (e : LoggerEngine) (lv : String) (engine : Engine) :
    ∃ t1, (e.add_engine lv engine).conf = some t1 ∧
      tableLookup t1 lv = some (engineList (e.add_engine lv engine) lv) := by
  cases hc : e.conf with
  | none =>
    refine ⟨[(lv, [engine])], by simp [LoggerEngine.add_engine, hc], ?_⟩
    simp [engineList, LoggerEngine.add_engine, hc, tableLookup]
  | some tbl =>
    refine ⟨confAdd engine lv tbl, by simp [LoggerEngine.add_engine, hc], ?_⟩
    simp [engineList, LoggerEngine.add_engine, hc, tableLookup_confAdd_self]

/-- The engine just registered occupies some position of the updated list. -/
theorem engineList_add_mem_pos (e : LoggerEngine) (lv : String) (engine : Engine) :
    ∃ i : Nat, (engineList (e.add_engine lv engine) lv)[i]? = some engine := by
  cases hc : e.conf with
  | none =>
    exact ⟨0, by simp [engineList, LoggerEngine.add_engine, hc, tableLookup]⟩
  | some tbl =>
    cases hl : tableLookup tbl lv with
    | none =>
      refine ⟨0, ?_⟩
      simp [engineList, LoggerEngine.add_engine, hc, tableLookup_confAdd_self, hl]
    | some es0 =>
      rw [engineList_add_of_conf e lv engine tbl es0 hc hl]
      unfold replaceOrAppend
      by_cases ha : es0.any (fun x => x.kind == engine.kind) = true
      · rw [if_pos ha]
        rcases List.any_eq_true.mp ha with ⟨x, hx, hpx⟩
        rcases exists_get_of_mem es0 x hx with ⟨j, hj⟩
        refine ⟨j, ?_⟩
        rw [List.getElem?_map, hj]
        have hxk : x.kind = engine.kind := beq_iff_eq.mp hpx
        simp [hxk]
      · rw [if_neg ha]
        exact ⟨es0.length, List.getElem?_concat_length es0 engine⟩

/-- On a list with pairwise-distinct kinds, registering an engine whose
kind already occurs at position `i` is exactly an in-place update there. -/
theorem replaceOrAppend_eq_set (engine : Engine) (L : List Engine) (i : Nat) (x : Engine)
    (hnd : (L.map Engine.kind).Nodup)
    (hi : L[i]? = some x) (hk : x.kind = engine.kind) :
    replaceOrAppend engine L = L.set i engine := by
  induction L generalizing i with
  | nil => simp at hi
  | cons y ys ih =>
    rw [List.map_cons] at hnd
    have hnin := (List.nodup_cons.mp hnd).1
    have hndtail := (List.nodup_cons.mp hnd).2
    cases i with
    | zero =>
      simp at hi
      subst hi
      have hnotin : ∀ z ∈ ys, z.kind ≠ engine.kind := by
        intro z hz hzk
        apply hnin
        rw [hk, ← hzk]
        exact List.mem_map_of_mem Engine.kind hz
      have hany : (y :: ys).any (fun z => z.kind == engine.kind) = true := by
        simp [hk]
      unfold replaceOrAppend
      rw [if_pos hany]
      simp [hk, replaceAll_id engine ys hnotin]
    | succ n =>
      simp at hi
      have hxmem : x ∈ ys := List.getElem?_mem hi
      have hanyYs : ys.any (fun z => z.kind == engine.kind) = true := by
        rw [List.any_eq_true]
        exact ⟨x, hxmem, by rw [beq_iff_eq]; exact hk⟩
      have hany : (y :: ys).any (fun z => z.kind == engine.kind) = true := by
        simp [List.any_cons, hanyYs]
      have hyk : y.kind ≠ engine.kind := by
        intro hcontr
        apply hnin
        rw [hcontr, ← hk]
        exact List.mem_map_of_mem Engine.kind hxmem
      have hys := ih n hndtail hi
      unfold replaceOrAppend at hys
      rw [if_pos hanyYs] at hys
      unfold replaceOrAppend
      rw [if_pos hany]
      simp only [List.map_cons, List.set]
      rw [if_neg hyk, hys]

/-- The number of registered sinks of a given concrete kind. -/
def countKind (es : List Engine) (k : EngineKind) : Nat :=
  (es.map Engine.kind).count k

/-- An in-place update by a same-kind engine leaves exactly one sink of
that kind in a list whose kinds were pairwise distinct. -/
theorem countKind_set (L : List Engine) (i : Nat) (a b : Engine)
    (hnd : (L.map Engine.kind).Nodup) (hi : L[i]? = some a) (hab : a.kind = b.kind) :
    countKind (L.set i b) b.kind = 1 := by
  have hmap : (L.set i b).map Engine.kind = L.map Engine.kind := by
    rw [List.map_set]
    apply set_eq_self_of_get
    rw [List.getElem?_map, hi]
    simp [hab]
  rw [countKind, hmap]
  apply List.count_eq_one_of_mem hnd
  rw [← hab]
  exact List.mem_map_of_mem Engine.kind (List.getElem?_mem hi)

/-- C7: for an engine whose custom table satisfies the class-distinctness
invariant, registering `e1` and then a same-kind `e2` for one level leaves
the second registration exactly in the position the first obtained — an
in-place `set`, nothing appended — and exactly one sink of that kind
remains registered for that level. -/
theorem add_engine_replaces_in_place (e : LoggerEngine) (lv : String) (e1 e2 : Engine)
    (hinv : confInvariant e.conf) (hk : e1.kind = e2.kind) :
    ∃ i : Nat, (engineList (e.add_engine lv e1) lv)[i]? = some e1 ∧
      engineList ((e.add_engine lv e1).add_engine lv e2) lv =
        (engineList (e.add_engine lv e1) lv).set i e2 ∧
      countKind (engineList ((e.add_engine lv e1).add_engine lv e2) lv) e2.kind = 1 := by
  obtain ⟨t1, ht1c, ht1l⟩ := engineList_add_lookup e lv e1
  have hL2 := engineList_add_of_conf (e.add_engine lv e1) lv e2 t1 _ ht1c ht1l
  have hinv1 : confInvariant (e.add_engine lv e1).conf := confInvariant_add e lv e1 hinv
  have hL1inv : engineList (e.add_engine lv e1) lv ≠ [] ∧
      ((engineList (e.add_engine lv e1) lv).map Engine.kind).Nodup := by
    rw [ht1c] at hinv1
    exact hinv1 (lv, _) (tableLookup_mem t1 lv _ ht1l)
  obtain ⟨i, hi⟩ := engineList_add_mem_pos e lv e1
  have hset := replaceOrAppend_eq_set e2 (engineList (e.add_engine lv e1) lv) i e1
    hL1inv.2 hi hk
  refine ⟨i, hi, ?_, ?_⟩
  · rw [hL2, hset]
  · rw [hL2, hset]
    exact countKind_set (engineList (e.add_engine lv e1) lv) i e1 e2 hL1inv.2 hi hk

/-- Witness for C7: two file-kind sinks registered for ERROR on a fresh
engine; the second replaces the first at position 0 and exactly one
file-kind sink remains. -/
theorem add_engine_replaces_in_place_witness :
    ∃ i : Nat, (engineList (LoggerEngine.add_engine LoggerEngine.init "ERROR"
        ⟨EngineKind.file, 1⟩) "ERROR")[i]? = some ⟨EngineKind.file, 1⟩ ∧
      engineList ((LoggerEngine.add_engine LoggerEngine.init "ERROR"
          ⟨EngineKind.file, 1⟩).add_engine "ERROR" ⟨EngineKind.file, 2⟩) "ERROR" =
        (engineList (LoggerEngine.add_engine LoggerEngine.init "ERROR"
          ⟨EngineKind.file, 1⟩) "ERROR").set i ⟨EngineKind.file, 2⟩ ∧
      countKind (engineList ((LoggerEngine.add_engine LoggerEngine.init "ERROR"
          ⟨EngineKind.file, 1⟩).add_engine "ERROR" ⟨EngineKind.file, 2⟩) "ERROR")
        EngineKind.file = 1 :=
  add_engine_replaces_in_place LoggerEngine.init "ERROR"
    ⟨EngineKind.file, 1⟩ ⟨EngineKind.file, 2⟩ trivial rfl

end ToolBox
